import Mathlib

/-! go-parquet2csv: a shallow embedding and its checked properties

The development follows the Go sources `parquet2csv.go`, `writers.go` and
`cmd/parquet2csv/main.go`.

Conventions of the embedding.

* The Go type `error` is `Option GoError`; `nil` is `none`.
* Stateful code is written in state-passing style.  The mutable objects are
  the map objects behind `ArrowReadProperties` (a `Heap`), the source file
  (`File`, with its close counter) and the state a sink owns (`SinkState`).
* Go `int` and `int64` values are integers; where an addition can leave the
  64-bit range the result is reduced with `wrapInt`.
* Interface, pointer and function values other than `error` are never `nil`
  and no call panics; a `(batch, error)` pair without an error carries a batch.
* What the Apache Arrow packages (`pqarrow`, `parquet/file`, `array`) compute
  from the bytes of a source is not recomputed here: a `File` records, for
  each library entry point the repository calls, the outcome it has on that
  source.  Their documented control flow (`SetReadDict`, `Reader.Close`,
  `IterFromReader`) is transcribed.
-/

namespace Parquet2Csv

/-! ## Errors (`errors.Join`, `errors.Is`) -/

/-- A non-nil Go error value.  `leaf id` is a plain error such as one made by
`errors.New`; `wrap id inner` is an error whose `Unwrap() error` gives `inner`
(as made by `fmt.Errorf` with `%w`); `join errs` is the value `errors.Join`
builds, whose `Unwrap() []error` gives `errs`. -/
inductive GoError where
  | leaf (id : Nat)
  | wrap (id : Nat) (inner : GoError)
  | join (errs : List GoError)

/-- Go `error`: `none` is `nil`. -/
abbrev error := Option GoError

mutual
/-- Go `==` on two non-nil error values. -/
def GoError.beq : GoError → GoError → Bool
  | .leaf a, .leaf b => a == b
  | .wrap a x, .wrap b y => a == b && GoError.beq x y
  | .join xs, .join ys => GoError.beqList xs ys
  | _, _ => false
/-- Pointwise `==` on the members of two joined errors. -/
def GoError.beqList : List GoError → List GoError → Bool
  | [], [] => true
  | x :: xs, y :: ys => GoError.beq x y && GoError.beqList xs ys
  | _, _ => false
end

mutual
/-- The tree walk of `errors.Is` for a non-nil `err` and a non-nil `target`:
`err` matches when it equals `target`, or when what it unwraps to matches
(every member, in order, for a joined error). -/
def GoError.is (target : GoError) : GoError → Bool
  | .leaf id => GoError.beq (.leaf id) target
  | .wrap id inner => GoError.beq (.wrap id inner) target || GoError.is target inner
  | .join errs => GoError.beq (.join errs) target || GoError.isAny target errs
/-- Whether some member of a joined error matches `target`. -/
def GoError.isAny (target : GoError) : List GoError → Bool
  | [] => false
  | e :: es => GoError.is target e || GoError.isAny target es
end

/-- Go `errors.Is(err, target)`: when either side is nil the answer is whether
both are; otherwise the tree of `err` is searched for `target`. -/
def Is (err target : error) : Bool :=
  match err, target with
  | none, none => true
  | none, some _ => false
  | some _, none => false
  | some e, some t => GoError.is t e

/-- The non-nil members of an argument list, in order. -/
def nonNil : List error → List GoError
  | [] => []
  | none :: rest => nonNil rest
  | some e :: rest => e :: nonNil rest

/-- Go `errors.Join(errs...)`: nil members are dropped; the result is nil when
nothing is left and otherwise one error wrapping the remaining ones. -/
def Join (errs : List error) : error :=
  match nonNil errs with
  | [] => none
  | e :: es => some (.join (e :: es))

/-! ## Read configuration (`ParquetReadOpts`) -/

/-- The map objects a program has allocated with `make(map[int]struct{})`.
A map value is a reference: the index of its object in the heap.  An object is
the list of the keys present. -/
abbrev Heap := List (List Int)

/-- Go `m[k] = struct{}{}` on the key set of a map object. -/
def mapSet (m : List Int) (k : Int) : List Int :=
  if k ∈ m then m else k :: m

/-- Go `delete(m, k)` on the key set of a map object. -/
def mapDelete (m : List Int) (k : Int) : List Int :=
  m.filter (fun x => x ≠ k)

/-- The struct `pqarrow.ArrowReadProperties`: two exported scalars and two
private maps, each either nil (`none`) or a reference into the heap. -/
structure ArrowReadProperties where
  Parallel : Bool
  BatchSize : Int
  readDictIndices : Option Nat
  forceLargeIndices : Option Nat
  deriving DecidableEq

/-- A `parquet/file.ReadOption`, identified by a tag. -/
structure ReadOption where
  tag : Nat
  deriving DecidableEq

/-- The struct `ParquetReadOpts`: it embeds `ArrowReadProperties` and adds the
slice `FileReadOptions` (nil is the empty list). -/
structure ParquetReadOpts extends ArrowReadProperties where
  FileReadOptions : List ReadOption
  deriving DecidableEq

/-- The first statement of `SetReadDict` and `SetForceLarge`: a nil map field
is replaced by a freshly made map; a non-nil one is kept. -/
def ensureMap (h : Heap) (ref : Option Nat) : Heap × Nat :=
  match ref with
  | none => (h ++ [[]], h.length)
  | some r => (h, r)

/-- The second statement of `SetReadDict` and `SetForceLarge`: store the key
when the flag is true, delete it otherwise, in the map object at `r`. -/
def storeFlag (h : Heap) (r : Nat) (colIdx : Int) (flag : Bool) : Heap :=
  h.set r (if flag then mapSet (h.getD r []) colIdx else mapDelete (h.getD r []) colIdx)

/-- The method `(*ArrowReadProperties).SetReadDict`, called on a struct value
`props`: returns the heap and the struct after the call. -/
def SetReadDict (h : Heap) (props : ArrowReadProperties) (colIdx : Int) (readDict : Bool) :
    Heap × ArrowReadProperties :=
  let a := ensureMap h props.readDictIndices
  (storeFlag a.1 a.2 colIdx readDict, { props with readDictIndices := some a.2 })

/-- The method `(*ArrowReadProperties).SetForceLarge`. -/
def SetForceLarge (h : Heap) (props : ArrowReadProperties) (colIdx : Int) (forceLarge : Bool) :
    Heap × ArrowReadProperties :=
  let a := ensureMap h props.forceLargeIndices
  (storeFlag a.1 a.2 colIdx forceLarge, { props with forceLargeIndices := some a.2 })

/-- Lookup `_, ok := m[colIdx]` through a map field: false for a nil map. -/
def lookupFlag (h : Heap) (ref : Option Nat) (colIdx : Int) : Bool :=
  match ref with
  | none => false
  | some r => decide (colIdx ∈ h.getD r [])

/-- The method `ArrowReadProperties.ReadDict`. -/
def ReadDict (h : Heap) (props : ArrowReadProperties) (colIdx : Int) : Bool :=
  lookupFlag h props.readDictIndices colIdx

/-- The method `ArrowReadProperties.ForceLarge`. -/
def ForceLarge (h : Heap) (props : ArrowReadProperties) (colIdx : Int) : Bool :=
  lookupFlag h props.forceLargeIndices colIdx

/-- The constant `DefaultBatchSize`. -/
def DefaultBatchSize : Int := 1024

/-- The function `NewParquetReadOpts`. -/
def NewParquetReadOpts : ParquetReadOpts :=
  { Parallel := false
    BatchSize := DefaultBatchSize
    readDictIndices := none
    forceLargeIndices := none
    FileReadOptions := [] }

/-- The method `ParquetReadOpts.WithBatchSize`.  The receiver `o` is a copy of
the caller's value; `int64(batchSize)` keeps the value of an `int`. -/
def WithBatchSize (o : ParquetReadOpts) (batchSize : Int) : ParquetReadOpts :=
  { o with BatchSize := batchSize }

/-- The method `ParquetReadOpts.WithParallel`. -/
def WithParallel (o : ParquetReadOpts) (parallel : Bool) : ParquetReadOpts :=
  { o with Parallel := parallel }

/-- The method `ParquetReadOpts.WithForceLarge`: `SetForceLarge` runs on the
copy `o`, which holds the same map references as the caller's value.  Returns
the heap after the call and the returned configuration. -/
def WithForceLarge (h : Heap) (o : ParquetReadOpts) (colIdx : Int) (forceLarge : Bool) :
    Heap × ParquetReadOpts :=
  let r := SetForceLarge h o.toArrowReadProperties colIdx forceLarge
  (r.1, { o with toArrowReadProperties := r.2 })

/-- The method `ParquetReadOpts.WithReadDict`. -/
def WithReadDict (h : Heap) (o : ParquetReadOpts) (colIdx : Int) (readDict : Bool) :
    Heap × ParquetReadOpts :=
  let r := SetReadDict h o.toArrowReadProperties colIdx readDict
  (r.1, { o with toArrowReadProperties := r.2 })

/-- The method `ForceLarge` of a `ParquetReadOpts`, promoted from the embedded
`ArrowReadProperties`. -/
def ParquetReadOpts.ForceLarge (o : ParquetReadOpts) (h : Heap) (colIdx : Int) : Bool :=
  Parquet2Csv.ForceLarge h o.toArrowReadProperties colIdx

/-- The method `ReadDict` of a `ParquetReadOpts`, promoted from the embedded
`ArrowReadProperties`. -/
def ParquetReadOpts.ReadDict (o : ParquetReadOpts) (h : Heap) (colIdx : Int) : Bool :=
  Parquet2Csv.ReadDict h o.toArrowReadProperties colIdx

/-- A map field is usable in a heap: nil, or a reference to an allocated
object. -/
def refOK (h : Heap) (ref : Option Nat) : Bool :=
  match ref with
  | none => true
  | some r => decide (r < h.length)

/-- Well-formed configuration in a heap: both map fields are usable and, when
both are set, they are different objects.  The zero value and
`NewParquetReadOpts` are well formed in every heap and the four setters keep
a configuration well formed (`wellFormed_*` below). -/
def wellFormed (h : Heap) (p : ArrowReadProperties) : Bool :=
  refOK h p.readDictIndices && refOK h p.forceLargeIndices &&
    (p.readDictIndices.isNone || decide (p.readDictIndices ≠ p.forceLargeIndices))

/-! ## Record batches, sequences and the reference sinks (`writers.go`) -/

/-- Go `int` arithmetic on a 64-bit platform: the value is kept in the range
from `-2^63` to `2^63 - 1` by wrapping around. -/
def wrapInt (x : Int) : Int :=
  (x + 2 ^ 63) % 2 ^ 64 - 2 ^ 63

/-- An `arrow.RecordBatch`: an identity and the value of `NumRows()`. -/
structure RecordBatch where
  id : Nat
  numRows : Int
  deriving DecidableEq

/-- One `(arrow.RecordBatch, error)` pair of a sequence: `ok rec` is the pair
`(rec, nil)`; `fail rec err` is a pair with the non-nil error `err`, whose
batch is nil (`none`) or not. -/
inductive Elem where
  | ok (rec : RecordBatch)
  | fail (rec : Option RecordBatch) (err : GoError)

/-- The type `Records` (`iter.Seq2[arrow.RecordBatch, error]`) for a finite
sequence: the elements the iterator hands to `yield`, in order, for as long as
`yield` answers true. -/
abbrev Records := List Elem

/-- A `context.Context`, identified by a tag. -/
structure Context where
  tag : Nat
  deriving DecidableEq

/-- The type `CsvWriter`, `func(context.Context, Records) error`, for a sink
whose own mutable state has type `σ`. -/
abbrev CsvWriter (σ : Type) := Context → Records → σ → σ × error

/-- Go `for rec, err := range records { body }`.  The body maps the state to a
new state and either falls through (`none`) or executes `return e`
(`some e`); after a `return` the iterator is not asked for more elements. -/
def rangeOver {σ : Type} (body : Elem → σ → σ × Option error) : Records → σ → σ × Option error
  | [], s => (s, none)
  | x :: xs, s =>
    match body x s with
    | (s1, some r) => (s1, some r)
    | (s1, none) => rangeOver body xs s1

/-- The struct `csvWriterOptions`. -/
structure csvWriterOptions where
  releaseRecords : Bool
  deriving DecidableEq

/-- The type `CsvWriterOption`, `func(*csvWriterOptions)`. -/
abbrev CsvWriterOption := csvWriterOptions → csvWriterOptions

/-- The function `WithReleaseRecords`. -/
def WithReleaseRecords (release : Bool) : CsvWriterOption :=
  fun o => { o with releaseRecords := release }

/-- The opening statements shared by `DiscardCsvWriter` and `CountCsvWriter`:
start from `releaseRecords: false` and apply the options in order. -/
def applyOptions (opts : List CsvWriterOption) : csvWriterOptions :=
  opts.foldl (fun options o => o options) { releaseRecords := false }

/-- What the reference sinks can change: the integer behind the `count`
pointer and the batches, recorded as the list of `Release()` calls in call
order.  `pulled` counts the executions of the loop body, that is the elements
the sink took from the sequence. -/
structure SinkState where
  count : Int
  released : List RecordBatch
  pulled : Nat
  deriving DecidableEq

/-- The call `rec.Release()`. -/
def Release (rec : RecordBatch) (s : SinkState) : SinkState :=
  { s with released := s.released ++ [rec] }

/-- The loop body of the function `DiscardCsvWriter` returns. -/
def discardBody (options : csvWriterOptions) (x : Elem) (s : SinkState) :
    SinkState × Option error :=
  let s1 := { s with pulled := s.pulled + 1 }
  match x with
  | .fail _ err => (s1, some (some err))
  | .ok rec => (if options.releaseRecords then Release rec s1 else s1, none)

/-- The function `DiscardCsvWriter`. -/
def DiscardCsvWriter (opts : List CsvWriterOption) : CsvWriter SinkState :=
  let options := applyOptions opts
  fun _ctx records s =>
    match rangeOver (discardBody options) records s with
    | (s1, some r) => (s1, r)
    | (s1, none) => (s1, none)

/-- The loop body of the function `CountCsvWriter` returns:
`(*count) += int(rec.NumRows())` is an `int` addition. -/
def countBody (options : csvWriterOptions) (x : Elem) (s : SinkState) :
    SinkState × Option error :=
  let s1 := { s with pulled := s.pulled + 1 }
  match x with
  | .fail _ err => (s1, some (some err))
  | .ok rec =>
    let s2 := { s1 with count := wrapInt (s1.count + wrapInt rec.numRows) }
    (if options.releaseRecords then Release rec s2 else s2, none)

/-- The function `CountCsvWriter`; the `count` pointer is the `count` field of
the sink state. -/
def CountCsvWriter (opts : List CsvWriterOption) : CsvWriter SinkState :=
  let options := applyOptions opts
  fun _ctx records s =>
    match rangeOver (countBody options) records s with
    | (s1, some r) => (s1, r)
    | (s1, none) => (s1, none)

/-- Reference definition (from the specification of the sinks): the error of
the first error-carrying element, nil when there is none. -/
def firstError : Records → error
  | [] => none
  | .fail _ err :: _ => some err
  | .ok _ :: rest => firstError rest

/-- Reference definition: the batches that precede the first error-carrying
element (all batches when there is none). -/
def observed : Records → List RecordBatch
  | [] => []
  | .fail _ _ :: _ => []
  | .ok rec :: rest => rec :: observed rest

/-- Reference definition: the number of elements up to and including the
first error-carrying one. -/
def reached : Records → Nat
  | [] => 0
  | .fail _ _ :: _ => 1
  | .ok _ :: rest => reached rest + 1

/-- The values of the Go type `int` on a 64-bit platform. -/
def isInt (x : Int) : Prop :=
  -(2 ^ 63) ≤ x ∧ x < 2 ^ 63

/-- Reference definition: the sum of `NumRows` over a list of batches. -/
def sumRows (bs : List RecordBatch) : Int :=
  (bs.map (fun b => b.numRows)).sum

/-! ## The source, the Batch Reader and the conversion driver (`parquet2csv.go`) -/

/-- A `pqarrow.RecordReader` as the consumer sees it: the batches successive
`Next()` calls deliver and the value of `Err()` once `Next()` has returned
false. -/
structure RecordReader where
  batches : List RecordBatch
  err : error

/-- A memory allocator, identified by a tag. -/
structure Allocator where
  tag : Nat
  deriving DecidableEq

/-- The value `memory.DefaultAllocator`. -/
def DefaultAllocator : Allocator := { tag := 0 }

/-- A source implementing the interface `File`.  `closeCount` is the number of
`Close()` calls made so far and `closeResult k` is what the call made after
`k` earlier ones returns.  The other fields record what the Arrow library
makes of this source: the error of `file.NewParquetReader`, of
`pqarrow.NewFileReader`, of `FileReader.Schema` and the result of
`FileReader.GetRecordReader(ctx, nil, nil)`. -/
structure File where
  closeCount : Nat
  closeResult : Nat → error
  newParquetReader : List ReadOption → error
  newFileReader : Heap → ArrowReadProperties → Allocator → error
  schema : error
  getRecordReader : Heap → ArrowReadProperties → Context → Except GoError RecordReader

/-- The method `Close` of a source: the call is counted and answers with the
result the source has for it. -/
def File.Close (f : File) : File × error :=
  ({ f with closeCount := f.closeCount + 1 }, f.closeResult f.closeCount)

/-- The method `(*file.Reader).Close` of the Arrow library for a reader over a
`File`: the underlying source is an `io.Closer`, so its `Close` is called and
its result returned. -/
def pfrdrClose (ras : File) : File × error :=
  ras.Close

/-- The struct `ParquetReader` after a successful open: the `FileReader` (held
as the properties it was built with) and the `Closer`, which is the
`file.Reader` over the source. -/
structure ParquetReader where
  props : ArrowReadProperties
  deriving DecidableEq

/-- The value `errors.Join(err, rest...)` when `err` is not nil. -/
def joinOnto (err : GoError) (rest : List error) : GoError :=
  .join (err :: nonNil rest)

/-- The method `ParquetReadOpts.ToReader`. -/
def ToReader (h : Heap) (o : ParquetReadOpts) (ras : File) (mem : Allocator) :
    File × Except GoError ParquetReader :=
  match ras.newParquetReader o.FileReadOptions with
  | some err => (ras, .error err)
  | none =>
    match ras.newFileReader h o.toArrowReadProperties mem with
    | some err =>
      let c := pfrdrClose ras
      (c.1, .error (joinOnto err [c.2]))
    | none => (ras, .ok { props := o.toArrowReadProperties })

/-- The method `ParquetReadOpts.ToReaderDefault`. -/
def ToReaderDefault (h : Heap) (o : ParquetReadOpts) (ras : File) :
    File × Except GoError ParquetReader :=
  ToReader h o ras DefaultAllocator

/-- The method `ParquetReadOpts.FileToReaderDefault`. -/
def FileToReaderDefault (h : Heap) (o : ParquetReadOpts) (f : File) :
    File × Except GoError ParquetReader :=
  ToReaderDefault h o f

/-- The method `Close` of a `ParquetReader`, promoted from its `Closer`. -/
def ParquetReader.Close (_p : ParquetReader) (f : File) : File × error :=
  pfrdrClose f

/-- The method `ParquetReader.ToRecordReaderDefault`. -/
def ParquetReader.ToRecordReaderDefault (p : ParquetReader) (h : Heap) (f : File)
    (ctx : Context) : Except GoError RecordReader :=
  f.getRecordReader h p.props ctx

/-- The function `array.IterFromReader` of the Arrow library: every batch with
a nil error, then one `(nil, err)` pair when the reader ended with an
error. -/
def IterFromReader (rdr : RecordReader) : Records :=
  rdr.batches.map Elem.ok ++
    (match rdr.err with
     | none => []
     | some e => [Elem.fail none e])

/-- The method `RecordReader.ToIter`. -/
def RecordReader.ToIter (r : RecordReader) : Records :=
  IterFromReader r

/-- The method `ParquetReader.ToIterDefault`. -/
def ParquetReader.ToIterDefault (p : ParquetReader) (h : Heap) (f : File) (ctx : Context) :
    Records :=
  match p.ToRecordReaderDefault h f ctx with
  | .ok rdr => rdr.ToIter
  | .error err => [Elem.fail none err]

/-- The method `ParquetReadOpts.ParquetFileToCsvDefault`.  Returns the source
and the sink state after the call, and the returned error. -/
def ParquetFileToCsvDefault {σ : Type} (h : Heap) (o : ParquetReadOpts) (ctx : Context)
    (parquetFile : File) (cwtr : CsvWriter σ) (s : σ) : File × σ × error :=
  match FileToReaderDefault h o parquetFile with
  | (f1, .error err) =>
    let c := f1.Close
    (c.1, s, Join [some err, c.2])
  | (f1, .ok rdr) =>
    let rows := rdr.ToIterDefault h f1 ctx
    let w := cwtr ctx rows s
    let c := rdr.Close f1
    (c.1, w.1, Join [w.2, c.2])

/-- The function `ParquetFileToCsv`. -/
def ParquetFileToCsv {σ : Type} (h : Heap) (ctx : Context) (parquetFile : File)
    (cwtr : CsvWriter σ) (s : σ) : File × σ × error :=
  let opts := NewParquetReadOpts
  ParquetFileToCsvDefault h opts ctx parquetFile cwtr s

/-! ## The command line program (`cmd/parquet2csv/main.go`) -/

/-- The struct `Options` of the command. -/
structure Options extends ParquetReadOpts where
  crlf : Bool
  comma : String
  header : Bool
  nullStr : String

/-- A `csv.Writer` as the command uses it: the error of the `Write` call made
after `k` earlier ones, for the batch written, and the error of `Flush`. -/
structure CsvOut where
  write : Nat → RecordBatch → error
  flush : error

/-- The standard output as a collaborator: `csv.NewWriter(os.Stdout, schema,
...)` with the header flag, the comma rune, the null string and the CRLF
flag. -/
structure Stdout where
  newWriter : Bool → Char → String → Bool → CsvOut

/-- The method `Options.ParquetFileToReader`. -/
def Options.ParquetFileToReader (h : Heap) (o : Options) (f : File) :
    File × Except GoError ParquetReader :=
  FileToReaderDefault h o.toParquetReadOpts f

/-- The deferred assignment `if nil == err { err = e }`. -/
def setIfNil (err e : error) : error :=
  match err with
  | none => e
  | some x => some x

/-- The loop `for recReader.Next() { ... }` of the command: the first write
error ends it with `return writeErr`; `k` is the number of earlier writes. -/
def writeLoop (writer : CsvOut) : Nat → List RecordBatch → error
  | _, [] => none
  | k, rec :: rest =>
    match writer.write k rec with
    | some writeErr => some writeErr
    | none => writeLoop writer (k + 1) rest

/-- The statements of `ParquetFileToRowsToCsvToStdout` between the first
`defer` and the `return` that ends the body: the value the `return` statement
gives to the named result `err`, and the writer whose `Flush` has been
deferred by then, if any. -/
def convertBody (h : Heap) (o : Options) (out : Stdout) (ctx : Context) (rdr : ParquetReader)
    (f : File) : error × Option CsvOut :=
  match f.schema with
  | some err => (some err, none)
  | none =>
    let commaRune : Char :=
      match o.comma.toList with
      | [] => ','
      | c :: _ => c
    let writer := out.newWriter o.header commaRune o.nullStr o.crlf
    match f.getRecordReader h rdr.props ctx with
    | .error err => (some err, some writer)
    | .ok recReader =>
      match writeLoop writer 0 recReader.batches with
      | some writeErr => (some writeErr, some writer)
      | none => (recReader.err, some writer)

/-- The deferred flush of `ParquetFileToRowsToCsvToStdout`, the first deferred
call to run: `Flush` is called when its `defer` statement was reached, and
its error becomes the named result when that is still nil. -/
def afterFlush (b : error × Option CsvOut) : error :=
  match b.2 with
  | some writer => setIfNil b.1 writer.flush
  | none => b.1

/-- The deferred calls of `ParquetFileToRowsToCsvToStdout`, run last
registered first on the named result: the flush, then the close of the
reader, whose error becomes the result when that is still nil. -/
def runDefers (b : error × Option CsvOut) (closeErr : error) : error :=
  setIfNil (afterFlush b) closeErr

/-- The method `Options.ParquetFileToRowsToCsvToStdout`. -/
def Options.ParquetFileToRowsToCsvToStdout (h : Heap) (o : Options) (out : Stdout)
    (ctx : Context) (pfile : File) : File × error :=
  match o.ParquetFileToReader h pfile with
  | (f1, .error err) => (f1, some err)
  | (f1, .ok rdr) =>
    let b := convertBody h o out ctx rdr f1
    let c := rdr.Close f1
    (c.1, runDefers b c.2)

/-- What a call of `Options.Convert` leaves: the opened file (if any) after
the call, the final value of the local variable `err`, and the returned
error. -/
structure ConvertResult where
  file : Option File
  localErr : error
  returned : error

/-- The method `Options.Convert`; `osOpen` is `os.Open`.  The result of
`Convert` is unnamed: the `return` statement fixes it, and the deferred
function then assigns the local variable `err` that `os.Open` left nil. -/
def Options.Convert (h : Heap) (o : Options) (out : Stdout) (ctx : Context)
    (osOpen : String → Except GoError File) (parquetFilename : String) : ConvertResult :=
  match osOpen parquetFilename with
  | .error err => { file := none, localErr := some err, returned := some err }
  | .ok pfile =>
    let err : error := none
    let r := o.ParquetFileToRowsToCsvToStdout h out ctx pfile
    let c := r.1.Close
    { file := some c.1, localErr := setIfNil err c.2, returned := r.2 }

/-! ## Concrete inputs -/

/-- A context used in the examples. -/
def ctx0 : Context := { tag := 0 }

/-- A sink state with a zero counter and nothing released or pulled. -/
def emptySink : SinkState := { count := 0, released := [], pulled := 0 }

/-- The source of the repository tests: a counting stub whose `Close` returns
nil, holding a well-formed file of one batch of three rows. -/
def threeRowSource : File :=
  { closeCount := 0
    closeResult := fun _ => none
    newParquetReader := fun _ => none
    newFileReader := fun _ _ _ => none
    schema := none
    getRecordReader := fun _ _ _ => .ok { batches := [{ id := 0, numRows := 3 }], err := none } }

/-- A counting stub over a file whose metadata parses but for which
`pqarrow.NewFileReader` fails with the error `leaf 1`. -/
def arrowRejectedSource : File :=
  { threeRowSource with newFileReader := fun _ _ _ => some (.leaf 1) }

/-- A counting stub over a file whose metadata does not parse
(`file.NewParquetReader` fails with the error `leaf 1`). -/
def unparsableSource : File :=
  { threeRowSource with newParquetReader := fun _ => some (.leaf 1) }

/-- A source that opens, whose schema query fails with `leaf 1` and whose
first `Close` fails with `leaf 2`. -/
def schemaFailsCloseFails : File :=
  { threeRowSource with schema := some (.leaf 1), closeResult := fun _ => some (.leaf 2) }

/-- A source that opens and converts, whose first `Close` fails with
`leaf 2`. -/
def closeFails : File :=
  { threeRowSource with closeResult := fun _ => some (.leaf 2) }

/-- A configuration that already carries a per-column override, with the heap
it lives in: `NewParquetReadOpts().WithForceLarge(0, true)`. -/
def overridden : Heap × ParquetReadOpts :=
  WithForceLarge [] NewParquetReadOpts 0 true

/-- The options of the command as `main` builds them from the default flags. -/
def defaultOptions : Options :=
  { toParquetReadOpts := WithParallel (WithBatchSize NewParquetReadOpts DefaultBatchSize) false
    crlf := false
    comma := ","
    header := true
    nullStr := "" }

/-- A standard output on which every write and the flush succeed. -/
def goodStdout : Stdout :=
  { newWriter := fun _ _ _ _ => { write := fun _ _ => none, flush := none } }

/-- An `os.Open` that opens the given file for every name. -/
def opens (f : File) : String → Except GoError File :=
  fun _ => .ok f

/-- A sink state whose counter holds the largest `int`. -/
def maxIntSink : SinkState := { count := 2 ^ 63 - 1, released := [], pulled := 0 }

/-- A sequence of one batch of one row. -/
def oneRow : Records := [Elem.ok { id := 0, numRows := 1 }]

/-- A sequence of two batches (ten and five rows), then a decode error, then
one more batch. -/
def twoThenError : Records :=
  [Elem.ok { id := 0, numRows := 10 }, Elem.ok { id := 1, numRows := 5 },
    Elem.fail none (.leaf 7), Elem.ok { id := 2, numRows := 4 }]

/-- A sink that returns the error `leaf 5` without pulling an element. -/
def failingSink : CsvWriter SinkState :=
  fun _ctx _records s => (s, some (.leaf 5))

/-- The file name used in the examples. -/
def inputName : String := "in.parquet"

/-! ## Theorems -/

/-! ### Errors -/

mutual
theorem GoError.beq_refl : ∀ e : GoError, GoError.beq e e = true
  | .leaf a => by simp [GoError.beq]
  | .wrap a x => by simp [GoError.beq, GoError.beq_refl x]
  | .join xs => by simp [GoError.beq, GoError.beqList_refl xs]
theorem GoError.beqList_refl : ∀ es : List GoError, GoError.beqList es es = true
  | [] => by simp [GoError.beqList]
  | x :: xs => by simp [GoError.beqList, GoError.beq_refl x, GoError.beqList_refl xs]
end

/-- An error matches itself. -/
theorem GoError.is_self (e : GoError) : GoError.is e e = true := by
  cases e <;> simp [GoError.is, GoError.beq_refl]

/-- A joined error matches each of its members. -/
theorem GoError.isAny_of_mem (t : GoError) :
    ∀ es : List GoError, t ∈ es → GoError.isAny t es = true
  | [], hm => by simp at hm
  | e :: es, hm => by
    rcases List.mem_cons.mp hm with rfl | hm1
    · simp [GoError.isAny, GoError.is_self]
    · simp [GoError.isAny, GoError.isAny_of_mem t es hm1]

/-- Membership in the non-nil part of an argument list. -/
theorem mem_nonNil (t : GoError) : ∀ errs : List error, some t ∈ errs → t ∈ nonNil errs
  | [], hm => by simp at hm
  | none :: rest, hm => by
    have hm1 : some t ∈ rest := by simpa using hm
    simpa [nonNil] using mem_nonNil t rest hm1
  | some e :: rest, hm => by
    rcases List.mem_cons.mp hm with heq | hm1
    · have : t = e := by simpa using heq
      simp [nonNil, this]
    · simp [nonNil, mem_nonNil t rest hm1]

/-- The result of `errors.Join` matches every non-nil argument. -/
theorem Is_Join_of_mem (errs : List error) (t : GoError) (hm : some t ∈ errs) :
    Is (Join errs) (some t) = true := by
  have hmem := mem_nonNil t errs hm
  unfold Join
  cases hn : nonNil errs with
  | nil => rw [hn] at hmem; simp at hmem
  | cons e es =>
    rw [hn] at hmem
    simp [Is, GoError.is, GoError.isAny_of_mem t (e :: es) hmem]

/-- The result of `errors.Join` is nil exactly when every argument is. -/
theorem Join_pair_eq_none (a b : error) : Join [a, b] = none ↔ a = none ∧ b = none := by
  cases a <;> cases b <;> simp [Join, nonNil]

/-- With a non-nil first argument `errors.Join` returns `joinOnto`. -/
theorem Join_cons_some (err : GoError) (rest : List error) :
    Join (some err :: rest) = some (joinOnto err rest) := by
  simp [Join, nonNil, joinOnto]

/-! ### Read configuration -/

theorem getD_set_self (h : Heap) (r : Nat) (v : List Int) (hr : r < h.length) :
    (h.set r v).getD r [] = v := by
  simp [List.getD_eq_getElem?_getD, hr]

theorem getD_set_ne (h : Heap) (r k : Nat) (v : List Int) (hne : r ≠ k) :
    (h.set r v).getD k [] = h.getD k [] := by
  simp [List.getD_eq_getElem?_getD, List.getElem?_set_ne hne]

theorem getD_append_lt (h t : Heap) (k : Nat) (hk : k < h.length) :
    (h ++ t).getD k [] = h.getD k [] := by
  simp [List.getD_eq_getElem?_getD, List.getElem?_append_left hk]

theorem mem_mapSet (m : List Int) (k j : Int) : j ∈ mapSet m k ↔ j = k ∨ j ∈ m := by
  unfold mapSet
  split
  · constructor
    · intro hj; exact Or.inr hj
    · rintro (rfl | hj)
      · assumption
      · exact hj
  · simp

theorem mem_mapDelete (m : List Int) (k j : Int) : j ∈ mapDelete m k ↔ j ∈ m ∧ j ≠ k := by
  simp [mapDelete]

/-- After `storeFlag` the stored key answers with the flag. -/
theorem lookup_storeFlag_self (h : Heap) (r : Nat) (i : Int) (b : Bool) (hr : r < h.length) :
    lookupFlag (storeFlag h r i b) (some r) i = b := by
  simp only [lookupFlag, storeFlag, getD_set_self h r _ hr]
  cases b <;> simp [mem_mapSet, mem_mapDelete]

/-- After `storeFlag` every other key of the same map answers as before. -/
theorem lookup_storeFlag_other (h : Heap) (r : Nat) (i j : Int) (b : Bool) (hr : r < h.length)
    (hj : j ≠ i) : lookupFlag (storeFlag h r i b) (some r) j = lookupFlag h (some r) j := by
  simp only [lookupFlag, storeFlag, getD_set_self h r _ hr]
  cases b <;> simp [mem_mapSet, mem_mapDelete, hj]

/-- After `storeFlag` on one map, a different map field answers as before. -/
theorem lookup_storeFlag_ne (h : Heap) (r : Nat) (i j : Int) (b : Bool) (ref : Option Nat)
    (hne : ref ≠ some r) : lookupFlag (storeFlag h r i b) ref j = lookupFlag h ref j := by
  cases ref with
  | none => rfl
  | some k =>
    have hk : r ≠ k := fun e => hne (by rw [e])
    simp only [lookupFlag, storeFlag, getD_set_ne h r k _ hk]

/-- A usable map field answers the same in a heap grown by `ensureMap`. -/
theorem lookup_append (h t : Heap) (ref : Option Nat) (j : Int) (hok : refOK h ref = true) :
    lookupFlag (h ++ t) ref j = lookupFlag h ref j := by
  cases ref with
  | none => rfl
  | some k =>
    have hk : k < h.length := by simpa [refOK] using hok
    simp only [lookupFlag, getD_append_lt h t k hk]

theorem wellFormed_iff (h : Heap) (p : ArrowReadProperties) :
    wellFormed h p = true ↔
      refOK h p.readDictIndices = true ∧ refOK h p.forceLargeIndices = true ∧
        (p.readDictIndices = none ∨ p.readDictIndices ≠ p.forceLargeIndices) := by
  cases hr : p.readDictIndices <;> simp [wellFormed, hr, and_assoc]

theorem refOK_lt (h : Heap) (r : Nat) (hok : refOK h (some r) = true) : r < h.length := by
  simpa [refOK] using hok

theorem lookup_fresh (h : Heap) (j : Int) : lookupFlag (h ++ [[]]) (some h.length) j = false := by
  simp [lookupFlag, List.getD_eq_getElem?_getD]

/-- What `SetForceLarge` does to the observables of a well-formed struct. -/
theorem SetForceLarge_spec (h : Heap) (p : ArrowReadProperties) (i : Int) (b : Bool)
    (hwf : wellFormed h p = true) :
    ForceLarge (SetForceLarge h p i b).1 (SetForceLarge h p i b).2 i = b ∧
    (∀ j, j ≠ i →
      ForceLarge (SetForceLarge h p i b).1 (SetForceLarge h p i b).2 j = ForceLarge h p j) ∧
    (∀ j, ReadDict (SetForceLarge h p i b).1 (SetForceLarge h p i b).2 j = ReadDict h p j) ∧
    (SetForceLarge h p i b).2.Parallel = p.Parallel ∧
    (SetForceLarge h p i b).2.BatchSize = p.BatchSize ∧
    (SetForceLarge h p i b).2.readDictIndices = p.readDictIndices := by
  obtain ⟨hrd, hfl, hdis⟩ := (wellFormed_iff h p).mp hwf
  cases hf : p.forceLargeIndices with
  | none =>
    have hlen : h.length < (h ++ [[]]).length := by simp
    have hne : p.readDictIndices ≠ some h.length := by
      intro e
      rw [e] at hrd
      exact Nat.lt_irrefl _ (refOK_lt h _ hrd)
    refine ⟨?_, ?_, ?_, rfl, rfl, rfl⟩
    · simpa [ForceLarge, SetForceLarge, ensureMap, hf] using
        lookup_storeFlag_self (h ++ [[]]) h.length i b hlen
    · intro j hj
      have h1 := lookup_storeFlag_other (h ++ [[]]) h.length i j b hlen hj
      rw [lookup_fresh] at h1
      simpa [ForceLarge, SetForceLarge, ensureMap, hf, lookupFlag] using h1
    · intro j
      have h1 := lookup_storeFlag_ne (h ++ [[]]) h.length i j b p.readDictIndices hne
      rw [lookup_append h [[]] p.readDictIndices j hrd] at h1
      simpa [ReadDict, SetForceLarge, ensureMap, hf] using h1
  | some r =>
    have hr : r < h.length := by
      rw [hf] at hfl
      exact refOK_lt h r hfl
    have hne : p.readDictIndices ≠ some r := by
      rcases hdis with hn | hn
      · rw [hn]; simp
      · rw [hf] at hn; exact hn
    refine ⟨?_, ?_, ?_, rfl, rfl, rfl⟩
    · simpa [ForceLarge, SetForceLarge, ensureMap, hf] using
        lookup_storeFlag_self h r i b hr
    · intro j hj
      simpa [ForceLarge, SetForceLarge, ensureMap, hf] using
        lookup_storeFlag_other h r i j b hr hj
    · intro j
      simpa [ReadDict, SetForceLarge, ensureMap, hf] using
        lookup_storeFlag_ne h r i j b p.readDictIndices hne

/-- What `SetReadDict` does to the observables of a well-formed struct. -/
theorem SetReadDict_spec (h : Heap) (p : ArrowReadProperties) (i : Int) (b : Bool)
    (hwf : wellFormed h p = true) :
    ReadDict (SetReadDict h p i b).1 (SetReadDict h p i b).2 i = b ∧
    (∀ j, j ≠ i →
      ReadDict (SetReadDict h p i b).1 (SetReadDict h p i b).2 j = ReadDict h p j) ∧
    (∀ j, ForceLarge (SetReadDict h p i b).1 (SetReadDict h p i b).2 j = ForceLarge h p j) ∧
    (SetReadDict h p i b).2.Parallel = p.Parallel ∧
    (SetReadDict h p i b).2.BatchSize = p.BatchSize ∧
    (SetReadDict h p i b).2.forceLargeIndices = p.forceLargeIndices := by
  obtain ⟨hrd, hfl, hdis⟩ := (wellFormed_iff h p).mp hwf
  cases hf : p.readDictIndices with
  | none =>
    have hlen : h.length < (h ++ [[]]).length := by simp
    have hne : p.forceLargeIndices ≠ some h.length := by
      intro e
      rw [e] at hfl
      exact Nat.lt_irrefl _ (refOK_lt h _ hfl)
    refine ⟨?_, ?_, ?_, rfl, rfl, rfl⟩
    · simpa [ReadDict, SetReadDict, ensureMap, hf] using
        lookup_storeFlag_self (h ++ [[]]) h.length i b hlen
    · intro j hj
      have h1 := lookup_storeFlag_other (h ++ [[]]) h.length i j b hlen hj
      rw [lookup_fresh] at h1
      simpa [ReadDict, SetReadDict, ensureMap, hf, lookupFlag] using h1
    · intro j
      have h1 := lookup_storeFlag_ne (h ++ [[]]) h.length i j b p.forceLargeIndices hne
      rw [lookup_append h [[]] p.forceLargeIndices j hfl] at h1
      simpa [ForceLarge, SetReadDict, ensureMap, hf] using h1
  | some r =>
    have hr : r < h.length := by
      rw [hf] at hrd
      exact refOK_lt h r hrd
    have hne : p.forceLargeIndices ≠ some r := by
      rcases hdis with hn | hn
      · rw [hf] at hn; simp at hn
      · rw [hf] at hn; exact fun e => hn e.symm
    refine ⟨?_, ?_, ?_, rfl, rfl, rfl⟩
    · simpa [ReadDict, SetReadDict, ensureMap, hf] using
        lookup_storeFlag_self h r i b hr
    · intro j hj
      simpa [ReadDict, SetReadDict, ensureMap, hf] using
        lookup_storeFlag_other h r i j b hr hj
    · intro j
      simpa [ForceLarge, SetReadDict, ensureMap, hf] using
        lookup_storeFlag_ne h r i j b p.forceLargeIndices hne

theorem length_storeFlag (h : Heap) (r : Nat) (i : Int) (b : Bool) :
    (storeFlag h r i b).length = h.length := by
  simp [storeFlag]

/-- A usable map field stays usable when `ensureMap` and `storeFlag` run. -/
theorem refOK_after (h : Heap) (ref field : Option Nat) (i : Int) (b : Bool)
    (hok : refOK h field = true) :
    refOK (storeFlag (ensureMap h ref).1 (ensureMap h ref).2 i b) field = true := by
  cases field with
  | none => rfl
  | some k =>
    have hk : k < h.length := refOK_lt h k hok
    cases ref with
    | none => simp [refOK, ensureMap, length_storeFlag]; omega
    | some r => simpa [refOK, ensureMap, length_storeFlag] using hk

/-- The field `ensureMap` fills is usable afterwards. -/
theorem refOK_ensured (h : Heap) (ref : Option Nat) (i : Int) (b : Bool)
    (hok : refOK h ref = true) :
    refOK (storeFlag (ensureMap h ref).1 (ensureMap h ref).2 i b)
      (some (ensureMap h ref).2) = true := by
  cases ref with
  | none => simp [refOK, ensureMap, length_storeFlag]
  | some r => simpa [refOK, ensureMap, length_storeFlag] using refOK_lt h r hok

/-- The zero value and `NewParquetReadOpts` are well formed in every heap. -/
theorem wellFormed_NewParquetReadOpts (h : Heap) :
    wellFormed h NewParquetReadOpts.toArrowReadProperties = true := by
  rfl

/-- `WithForceLarge` returns a well-formed configuration. -/
theorem wellFormed_WithForceLarge (h : Heap) (c : ParquetReadOpts) (i : Int) (b : Bool)
    (hwf : wellFormed h c.toArrowReadProperties = true) :
    wellFormed (WithForceLarge h c i b).1 (WithForceLarge h c i b).2.toArrowReadProperties
      = true := by
  obtain ⟨hrd, hfl, hdis⟩ := (wellFormed_iff h _).mp hwf
  rw [wellFormed_iff]
  refine ⟨?_, ?_, ?_⟩
  · exact refOK_after h c.forceLargeIndices c.readDictIndices i b hrd
  · exact refOK_ensured h c.forceLargeIndices i b hfl
  · cases hr : c.readDictIndices with
    | none => exact Or.inl (by simp [WithForceLarge, SetForceLarge, hr])
    | some k =>
      right
      have hk : k < h.length := by rw [hr] at hrd; exact refOK_lt h k hrd
      cases hf : c.forceLargeIndices with
      | none =>
        simp only [WithForceLarge, SetForceLarge, ensureMap, hr, hf]
        intro e
        have : k = h.length := by simpa using e
        omega
      | some r =>
        simp only [WithForceLarge, SetForceLarge, ensureMap, hr, hf]
        rcases hdis with hn | hn
        · rw [hr] at hn; simp at hn
        · rw [hr, hf] at hn; exact hn

/-- `WithReadDict` returns a well-formed configuration. -/
theorem wellFormed_WithReadDict (h : Heap) (c : ParquetReadOpts) (i : Int) (b : Bool)
    (hwf : wellFormed h c.toArrowReadProperties = true) :
    wellFormed (WithReadDict h c i b).1 (WithReadDict h c i b).2.toArrowReadProperties
      = true := by
  obtain ⟨hrd, hfl, hdis⟩ := (wellFormed_iff h _).mp hwf
  rw [wellFormed_iff]
  refine ⟨?_, ?_, ?_⟩
  · exact refOK_ensured h c.readDictIndices i b hrd
  · exact refOK_after h c.readDictIndices c.forceLargeIndices i b hfl
  · right
    cases hf : c.forceLargeIndices with
    | none => simp [WithReadDict, SetReadDict, hf]
    | some k =>
      have hk : k < h.length := by rw [hf] at hfl; exact refOK_lt h k hfl
      cases hr : c.readDictIndices with
      | none =>
        simp only [WithReadDict, SetReadDict, ensureMap, hr, hf]
        intro e
        have : h.length = k := by simpa using e
        omega
      | some r =>
        simp only [WithReadDict, SetReadDict, ensureMap, hr, hf]
        rcases hdis with hn | hn
        · rw [hr] at hn; simp at hn
        · rw [hr, hf] at hn; exact hn

/-- C6: each setter returns a configuration with exactly its own field
changed.  For a well-formed configuration `c` in a heap `h`:
`WithBatchSize(n)` has `BatchSize == n`, `WithParallel(p)` has
`Parallel == p`, `WithForceLarge(i, b)` has `ForceLarge(i) == b`,
`WithReadDict(i, b)` has `ReadDict(i) == b`, and every other observable of the
result (the other scalar fields, `ForceLarge(j)` and `ReadDict(j)` for the
other columns `j`, the other per-column mapping, `FileReadOptions`) has the
value it had for `c`. -/
theorem setters_change_exactly_their_field (h : Heap) (c : ParquetReadOpts)
    (hwf : wellFormed h c.toArrowReadProperties = true) (n : Int) (p b : Bool) (i : Int) :
    ((WithBatchSize c n).BatchSize = n ∧
      (WithBatchSize c n).Parallel = c.Parallel ∧
      (∀ j, (WithBatchSize c n).ForceLarge h j = c.ForceLarge h j) ∧
      (∀ j, (WithBatchSize c n).ReadDict h j = c.ReadDict h j) ∧
      (WithBatchSize c n).FileReadOptions = c.FileReadOptions) ∧
    ((WithParallel c p).Parallel = p ∧
      (WithParallel c p).BatchSize = c.BatchSize ∧
      (∀ j, (WithParallel c p).ForceLarge h j = c.ForceLarge h j) ∧
      (∀ j, (WithParallel c p).ReadDict h j = c.ReadDict h j) ∧
      (WithParallel c p).FileReadOptions = c.FileReadOptions) ∧
    ((WithForceLarge h c i b).2.ForceLarge (WithForceLarge h c i b).1 i = b ∧
      (∀ j, j ≠ i →
        (WithForceLarge h c i b).2.ForceLarge (WithForceLarge h c i b).1 j = c.ForceLarge h j) ∧
      (∀ j, (WithForceLarge h c i b).2.ReadDict (WithForceLarge h c i b).1 j = c.ReadDict h j) ∧
      (WithForceLarge h c i b).2.BatchSize = c.BatchSize ∧
      (WithForceLarge h c i b).2.Parallel = c.Parallel ∧
      (WithForceLarge h c i b).2.FileReadOptions = c.FileReadOptions) ∧
    ((WithReadDict h c i b).2.ReadDict (WithReadDict h c i b).1 i = b ∧
      (∀ j, j ≠ i →
        (WithReadDict h c i b).2.ReadDict (WithReadDict h c i b).1 j = c.ReadDict h j) ∧
      (∀ j, (WithReadDict h c i b).2.ForceLarge (WithReadDict h c i b).1 j = c.ForceLarge h j) ∧
      (WithReadDict h c i b).2.BatchSize = c.BatchSize ∧
      (WithReadDict h c i b).2.Parallel = c.Parallel ∧
      (WithReadDict h c i b).2.FileReadOptions = c.FileReadOptions) := by
  obtain ⟨f1, f2, f3, f4, f5, _⟩ := SetForceLarge_spec h c.toArrowReadProperties i b hwf
  obtain ⟨r1, r2, r3, r4, r5, _⟩ := SetReadDict_spec h c.toArrowReadProperties i b hwf
  refine ⟨⟨rfl, rfl, fun _ => rfl, fun _ => rfl, rfl⟩,
    ⟨rfl, rfl, fun _ => rfl, fun _ => rfl, rfl⟩,
    ⟨f1, f2, f3, f5, f4, rfl⟩, ⟨r1, r2, r3, r5, r4, rfl⟩⟩

/-- C6 at a concrete input: the configuration
`NewParquetReadOpts().WithForceLarge(0, true)` with `n = 123`, `p = true`,
`b = true` and column `1`. -/
theorem setters_change_exactly_their_field_witness :
    wellFormed overridden.1 overridden.2.toArrowReadProperties = true ∧
    (WithBatchSize overridden.2 123).BatchSize = 123 ∧
    (WithForceLarge overridden.1 overridden.2 1 true).2.ForceLarge
      (WithForceLarge overridden.1 overridden.2 1 true).1 1 = true ∧
    (WithReadDict overridden.1 overridden.2 1 true).2.ForceLarge
      (WithReadDict overridden.1 overridden.2 1 true).1 0 = overridden.2.ForceLarge overridden.1 0 :=
  have t := setters_change_exactly_their_field overridden.1 overridden.2 (by decide) 123 true true 1
  ⟨by decide, t.1.1, t.2.2.1.1, t.2.2.2.2.2.1 0⟩

/-- C5 at a failing input: `c` is `NewParquetReadOpts().WithForceLarge(0, true)`.
Before the call `c.WithForceLarge(1, true)` the receiver answers
`ForceLarge(1) == false`; after it the same receiver answers true.  The same
holds for `ReadDict` after `WithReadDict` twice. -/
theorem WithForceLarge_changes_receiver :
    overridden.2.ForceLarge overridden.1 1 = false ∧
    overridden.2.ForceLarge (WithForceLarge overridden.1 overridden.2 1 true).1 1 = true ∧
    (WithReadDict [] NewParquetReadOpts 0 true).2.ReadDict
      (WithReadDict [] NewParquetReadOpts 0 true).1 1 = false ∧
    (WithReadDict [] NewParquetReadOpts 0 true).2.ReadDict
      (WithReadDict (WithReadDict [] NewParquetReadOpts 0 true).1
        (WithReadDict [] NewParquetReadOpts 0 true).2 1 true).1 1 = true := by
  decide

/-- C9: the configuration `NewParquetReadOpts` returns has batch size 1024
(`DefaultBatchSize`), parallel decode disabled, no per-column override and no
file read options, and `ParquetFileToCsv` is `ParquetFileToCsvDefault` run
with exactly this configuration. -/
theorem default_configuration :
    NewParquetReadOpts.BatchSize = 1024 ∧
    NewParquetReadOpts.BatchSize = DefaultBatchSize ∧
    NewParquetReadOpts.Parallel = false ∧
    (∀ (h : Heap) (j : Int), NewParquetReadOpts.ForceLarge h j = false) ∧
    (∀ (h : Heap) (j : Int), NewParquetReadOpts.ReadDict h j = false) ∧
    NewParquetReadOpts.FileReadOptions = [] ∧
    (∀ (σ : Type) (h : Heap) (ctx : Context) (f : File) (w : CsvWriter σ) (s : σ),
      ParquetFileToCsv h ctx f w s = ParquetFileToCsvDefault h NewParquetReadOpts ctx f w s) :=
  ⟨rfl, rfl, rfl, fun _ _ => rfl, fun _ _ => rfl, rfl, fun _ _ _ _ _ _ => rfl⟩

/-! ### The reference sinks -/

theorem wrapInt_of_isInt (x : Int) (hx : isInt x) : wrapInt x = x := by
  unfold isInt at hx
  unfold wrapInt
  omega

theorem isInt_wrapInt (x : Int) : isInt (wrapInt x) := by
  unfold isInt wrapInt
  omega

theorem wrapInt_add_wrapInt (a b : Int) : wrapInt (a + wrapInt b) = wrapInt (a + b) := by
  unfold wrapInt
  omega

theorem wrapInt_wrapInt_add (a b : Int) : wrapInt (wrapInt a + b) = wrapInt (a + b) := by
  unfold wrapInt
  omega

/-- The loop of `DiscardCsvWriter` in closed form. -/
theorem rangeOver_discardBody (options : csvWriterOptions) :
    ∀ (records : Records) (s : SinkState),
      rangeOver (discardBody options) records s =
        ({ count := s.count
           released := s.released ++ (if options.releaseRecords then observed records else [])
           pulled := s.pulled + reached records },
          (firstError records).map some)
  | [], s => by simp [rangeOver, observed, reached, firstError]
  | .fail rec err :: rest, s => by
    simp [rangeOver, discardBody, observed, reached, firstError]
  | .ok rec :: rest, s => by
    cases hrel : options.releaseRecords
    · have ih := rangeOver_discardBody options rest { s with pulled := s.pulled + 1 }
      simp only [hrel] at ih
      simp [rangeOver, discardBody, observed, reached, firstError, hrel, ih]
      omega
    · have ih := rangeOver_discardBody options rest
        (Release rec { s with pulled := s.pulled + 1 })
      simp only [hrel, Release] at ih
      simp [rangeOver, discardBody, observed, reached, firstError, hrel, ih, Release]
      omega

/-- The loop of `CountCsvWriter` in closed form, for a counter that starts as
an `int`. -/
theorem rangeOver_countBody (options : csvWriterOptions) :
    ∀ (records : Records) (s : SinkState), isInt s.count →
      rangeOver (countBody options) records s =
        ({ count := wrapInt (s.count + sumRows (observed records))
           released := s.released ++ (if options.releaseRecords then observed records else [])
           pulled := s.pulled + reached records },
          (firstError records).map some)
  | [], s, hc => by
    simp [rangeOver, observed, reached, firstError, sumRows, wrapInt_of_isInt s.count hc]
  | .fail rec err :: rest, s, hc => by
    simp [rangeOver, countBody, observed, reached, firstError, sumRows,
      wrapInt_of_isInt s.count hc]
  | .ok rec :: rest, s, hc => by
    have hstep : wrapInt (wrapInt (s.count + wrapInt rec.numRows) + sumRows (observed rest)) =
        wrapInt (s.count + (rec.numRows + sumRows (observed rest))) := by
      rw [wrapInt_wrapInt_add]
      have e1 : s.count + wrapInt rec.numRows + sumRows (observed rest) =
          (s.count + sumRows (observed rest)) + wrapInt rec.numRows := by ring
      have e2 : s.count + (rec.numRows + sumRows (observed rest)) =
          (s.count + sumRows (observed rest)) + rec.numRows := by ring
      rw [e1, e2, wrapInt_add_wrapInt]
    cases hrel : options.releaseRecords
    · have ih := rangeOver_countBody options rest
        { s with pulled := s.pulled + 1, count := wrapInt (s.count + wrapInt rec.numRows) }
        (isInt_wrapInt _)
      simp only [hrel] at ih
      simp [rangeOver, countBody, observed, reached, firstError, hrel, ih, sumRows] at hstep ⊢
      exact ⟨hstep, by omega⟩
    · have ih := rangeOver_countBody options rest
        (Release rec
          { s with pulled := s.pulled + 1, count := wrapInt (s.count + wrapInt rec.numRows) })
        (isInt_wrapInt _)
      simp only [hrel, Release] at ih
      simp [rangeOver, countBody, observed, reached, firstError, hrel, ih, sumRows, Release]
        at hstep ⊢
      exact ⟨hstep, by omega⟩

/-- What `DiscardCsvWriter` returns and leaves, for any options. -/
theorem DiscardCsvWriter_eq (opts : List CsvWriterOption) (ctx : Context) (records : Records)
    (s : SinkState) :
    DiscardCsvWriter opts ctx records s =
      ({ count := s.count
         released := s.released ++
           (if (applyOptions opts).releaseRecords then observed records else [])
         pulled := s.pulled + reached records },
        firstError records) := by
  simp only [DiscardCsvWriter, rangeOver_discardBody]
  cases firstError records <;> rfl

/-- What `CountCsvWriter` returns and leaves, for any options and a counter
that starts as an `int`. -/
theorem CountCsvWriter_eq (opts : List CsvWriterOption) (ctx : Context) (records : Records)
    (s : SinkState) (hc : isInt s.count) :
    CountCsvWriter opts ctx records s =
      ({ count := wrapInt (s.count + sumRows (observed records))
         released := s.released ++
           (if (applyOptions opts).releaseRecords then observed records else [])
         pulled := s.pulled + reached records },
        firstError records) := by
  simp only [CountCsvWriter, rangeOver_countBody _ records s hc]
  cases firstError records <;> rfl

/-- C7, as amended: on every finite sequence of (batch, error) elements and
every initial counter value `c0` of type `int`, `CountCsvWriter` returns the
error of the first error-carrying element (nil when there is none) and leaves
the counter equal to `c0` plus the sum of `NumRows` over the batches that
precede that element, wrapped around to the 64-bit `int` range, hence equal to
the exact sum whenever that sum is an `int`; it pulls the elements up to and
including the first error-carrying one and no element after it. -/
theorem CountCsvWriter_matches_reference (opts : List CsvWriterOption) (ctx : Context)
    (records : Records) (s : SinkState) (hc : isInt s.count) :
    (CountCsvWriter opts ctx records s).2 = firstError records ∧
    (CountCsvWriter opts ctx records s).1.count =
      wrapInt (s.count + sumRows (observed records)) ∧
    (isInt (s.count + sumRows (observed records)) →
      (CountCsvWriter opts ctx records s).1.count = s.count + sumRows (observed records)) ∧
    (CountCsvWriter opts ctx records s).1.pulled = s.pulled + reached records := by
  rw [CountCsvWriter_eq opts ctx records s hc]
  exact ⟨rfl, rfl, fun h => wrapInt_of_isInt _ h, rfl⟩

/-- C7 (amended) at a concrete input: two batches of ten and five rows, a
decode error, one more batch; the counter starts at zero. -/
theorem CountCsvWriter_matches_reference_witness :
    isInt emptySink.count ∧
    isInt (emptySink.count + sumRows (observed twoThenError)) ∧
    (CountCsvWriter [] ctx0 twoThenError emptySink).2 = some (.leaf 7) ∧
    (CountCsvWriter [] ctx0 twoThenError emptySink).1.count = 15 ∧
    (CountCsvWriter [] ctx0 twoThenError emptySink).1.pulled = 3 :=
  have hc : isInt emptySink.count := by unfold isInt; decide
  have hs : isInt (emptySink.count + sumRows (observed twoThenError)) := by unfold isInt; decide
  have t := CountCsvWriter_matches_reference [] ctx0 twoThenError emptySink hc
  ⟨hc, hs, t.1, t.2.2.1 hs, t.2.2.2⟩

/-- C7 as stated fails: with the counter at the largest `int` and one batch of
one row, `CountCsvWriter` leaves the counter at `-2^63`, not at the initial
value plus the sum of `NumRows`. -/
theorem CountCsvWriter_counter_wraps :
    isInt maxIntSink.count ∧
    (CountCsvWriter [] ctx0 oneRow maxIntSink).2 = none ∧
    (CountCsvWriter [] ctx0 oneRow maxIntSink).1.count = -(2 ^ 63) ∧
    (CountCsvWriter [] ctx0 oneRow maxIntSink).1.count ≠
      maxIntSink.count + sumRows (observed oneRow) := by
  refine ⟨by unfold isInt; decide, rfl, by decide, by decide⟩

/-- C8: for every finite sequence of (batch, error) elements,
`DiscardCsvWriter` returns the error of the first error-carrying element (nil
when there is none), whatever its options; built with
`WithReleaseRecords(true)` its `Release` calls are exactly one per batch that
precedes the first error, in order, and no other; built with no option or with
`WithReleaseRecords(false)` it makes no `Release` call.  It pulls the elements
up to and including the first error-carrying one. -/
theorem DiscardCsvWriter_first_error_and_release (ctx : Context) (records : Records)
    (s : SinkState) :
    (∀ opts, (DiscardCsvWriter opts ctx records s).2 = firstError records) ∧
    (∀ opts, (DiscardCsvWriter opts ctx records s).1.pulled = s.pulled + reached records) ∧
    (DiscardCsvWriter [WithReleaseRecords true] ctx records s).1.released =
      s.released ++ observed records ∧
    (∀ b, (DiscardCsvWriter [WithReleaseRecords true] ctx records s).1.released.count b =
      s.released.count b + (observed records).count b) ∧
    (DiscardCsvWriter [] ctx records s).1.released = s.released ∧
    (DiscardCsvWriter [WithReleaseRecords false] ctx records s).1.released = s.released := by
  refine ⟨fun opts => ?_, fun opts => ?_, ?_, fun b => ?_, ?_, ?_⟩
  · rw [DiscardCsvWriter_eq]
  · rw [DiscardCsvWriter_eq]
  · rw [DiscardCsvWriter_eq]
    simp [applyOptions, WithReleaseRecords]
  · rw [DiscardCsvWriter_eq]
    simp [applyOptions, WithReleaseRecords]
  · rw [DiscardCsvWriter_eq]
    simp [applyOptions]
  · rw [DiscardCsvWriter_eq]
    simp [applyOptions, WithReleaseRecords]

/-! ### The conversion driver -/

/-- A successful open leaves the source as it was. -/
theorem FileToReaderDefault_ok (h : Heap) (o : ParquetReadOpts) (f : File) (rdr : ParquetReader)
    (hopen : (FileToReaderDefault h o f).2 = .ok rdr) :
    FileToReaderDefault h o f = (f, .ok rdr) := by
  unfold FileToReaderDefault ToReaderDefault ToReader at hopen ⊢
  cases h1 : f.newParquetReader o.FileReadOptions with
  | some err => simp [h1] at hopen
  | none =>
    cases h2 : f.newFileReader h o.toArrowReadProperties DefaultAllocator with
    | some err => simp [h1, h2] at hopen
    | none =>
      simp only [h1, h2] at hopen ⊢
      rw [← hopen]

/-- The driver after a successful open: the sink runs on the sequence of the
reader, the source is closed once, and the two errors are joined. -/
theorem ParquetFileToCsvDefault_ok {σ : Type} (h : Heap) (o : ParquetReadOpts) (ctx : Context)
    (f : File) (cwtr : CsvWriter σ) (s : σ) (rdr : ParquetReader)
    (hopen : (FileToReaderDefault h o f).2 = .ok rdr) :
    ParquetFileToCsvDefault h o ctx f cwtr s =
      (f.Close.1, (cwtr ctx (rdr.ToIterDefault h f ctx) s).1,
        Join [(cwtr ctx (rdr.ToIterDefault h f ctx) s).2, f.Close.2]) := by
  unfold ParquetFileToCsvDefault
  rw [FileToReaderDefault_ok h o f rdr hopen]
  rfl

/-- The driver after a failed open: the source left by the open is closed and
the open error is joined with the result of that close. -/
theorem ParquetFileToCsvDefault_error {σ : Type} (h : Heap) (o : ParquetReadOpts)
    (ctx : Context) (f : File) (cwtr : CsvWriter σ) (s : σ) (e : GoError)
    (hopen : (FileToReaderDefault h o f).2 = .error e) :
    ParquetFileToCsvDefault h o ctx f cwtr s =
      ((FileToReaderDefault h o f).1.Close.1, s,
        Join [some e, (FileToReaderDefault h o f).1.Close.2]) := by
  unfold ParquetFileToCsvDefault
  cases hr : FileToReaderDefault h o f with
  | mk f1 r =>
    rw [hr] at hopen
    simp only at hopen
    subst hopen
    rfl

/-- C1: for every source on which opening the Batch Reader succeeds and for
every sink, `ParquetFileToCsvDefault` invokes the source's `Close` exactly
once: the close count after the call is the count before it plus one (so 1
for a fresh counting stub). -/
theorem close_once_after_successful_open {σ : Type} (h : Heap) (o : ParquetReadOpts)
    (ctx : Context) (f : File) (cwtr : CsvWriter σ) (s : σ) (rdr : ParquetReader)
    (hopen : (FileToReaderDefault h o f).2 = .ok rdr) :
    (ParquetFileToCsvDefault h o ctx f cwtr s).1.closeCount = f.closeCount + 1 := by
  rw [ParquetFileToCsvDefault_ok h o ctx f cwtr s rdr hopen]
  rfl

/-- C1 at a concrete input: the counting stub of the tests with the draining
sink `DiscardCsvWriter()`; the close count after the call is 1. -/
theorem close_once_after_successful_open_witness :
    (FileToReaderDefault [] NewParquetReadOpts threeRowSource).2 =
      .ok { props := NewParquetReadOpts.toArrowReadProperties } ∧
    (ParquetFileToCsvDefault [] NewParquetReadOpts ctx0 threeRowSource
      (DiscardCsvWriter []) emptySink).1.closeCount = 0 + 1 :=
  ⟨rfl, close_once_after_successful_open [] NewParquetReadOpts ctx0 threeRowSource
    (DiscardCsvWriter []) emptySink { props := NewParquetReadOpts.toArrowReadProperties } rfl⟩

/-- The driver when metadata parsing fails: the source is closed once and the
returned error matches the open error and the error of that close. -/
theorem open_failure_at_metadata_stage {σ : Type} (h : Heap) (o : ParquetReadOpts)
    (ctx : Context) (f : File) (cwtr : CsvWriter σ) (s : σ) (e : GoError)
    (hmeta : f.newParquetReader o.FileReadOptions = some e) :
    (ParquetFileToCsvDefault h o ctx f cwtr s).1.closeCount = f.closeCount + 1 ∧
    Is (ParquetFileToCsvDefault h o ctx f cwtr s).2.2 (some e) = true ∧
    (∀ c, f.closeResult f.closeCount = some c →
      Is (ParquetFileToCsvDefault h o ctx f cwtr s).2.2 (some c) = true) := by
  have hopen : FileToReaderDefault h o f = (f, .error e) := by
    simp [FileToReaderDefault, ToReaderDefault, ToReader, hmeta]
  have hrun := ParquetFileToCsvDefault_error h o ctx f cwtr s e (by rw [hopen])
  rw [hopen] at hrun
  rw [hrun]
  refine ⟨rfl, ?_, fun c hc => ?_⟩
  · exact Is_Join_of_mem [some e, f.Close.2] e (List.mem_cons_self _ _)
  · have hc1 : f.Close.2 = some c := hc
    have hm : some c ∈ [some e, f.Close.2] := by rw [hc1]; simp
    exact Is_Join_of_mem [some e, f.Close.2] c hm

/-- The driver when `pqarrow.NewFileReader` fails after metadata parsing
succeeded: `ToReader` closes the source through the `file.Reader` and the
driver closes it again, so the close count grows by two. -/
theorem open_failure_at_arrow_stage {σ : Type} (h : Heap) (o : ParquetReadOpts)
    (ctx : Context) (f : File) (cwtr : CsvWriter σ) (s : σ) (e : GoError)
    (hmeta : f.newParquetReader o.FileReadOptions = none)
    (harrow : f.newFileReader h o.toArrowReadProperties DefaultAllocator = some e) :
    (ParquetFileToCsvDefault h o ctx f cwtr s).1.closeCount = f.closeCount + 2 := by
  have hopen : FileToReaderDefault h o f = (f.Close.1, .error (joinOnto e [f.Close.2])) := by
    simp [FileToReaderDefault, ToReaderDefault, ToReader, hmeta, harrow, pfrdrClose]
  have hrun := ParquetFileToCsvDefault_error h o ctx f cwtr s _ (by rw [hopen])
  rw [hopen] at hrun
  rw [hrun]
  rfl

/-- C2 at a failing input: on a counting stub whose metadata parses and for
which `pqarrow.NewFileReader` fails, `ParquetFileToCsvDefault` leaves the
close count at 2; on a stub whose metadata does not parse it leaves it at
1. -/
theorem open_failure_at_arrow_stage_closes_twice :
    (ParquetFileToCsvDefault [] NewParquetReadOpts ctx0 arrowRejectedSource
      (DiscardCsvWriter []) emptySink).1.closeCount = 2 ∧
    (ParquetFileToCsvDefault [] NewParquetReadOpts ctx0 unparsableSource
      (DiscardCsvWriter []) emptySink).1.closeCount = 1 := by
  decide

/-- C3: after a successful open, if the sink returns a non-nil error `se` then
the error `ParquetFileToCsvDefault` returns matches `se` under `errors.Is`,
and if closing the reader returns a non-nil error `ce` then the same returned
error matches `ce`; neither cause replaces the other. -/
theorem sink_and_close_errors_both_kept {σ : Type} (h : Heap) (o : ParquetReadOpts)
    (ctx : Context) (f : File) (cwtr : CsvWriter σ) (s : σ) (rdr : ParquetReader)
    (se ce : GoError) (hopen : (FileToReaderDefault h o f).2 = .ok rdr) :
    ((cwtr ctx (rdr.ToIterDefault h f ctx) s).2 = some se →
      Is (ParquetFileToCsvDefault h o ctx f cwtr s).2.2 (some se) = true) ∧
    ((rdr.Close f).2 = some ce →
      Is (ParquetFileToCsvDefault h o ctx f cwtr s).2.2 (some ce) = true) := by
  rw [ParquetFileToCsvDefault_ok h o ctx f cwtr s rdr hopen]
  constructor
  · intro hs
    exact Is_Join_of_mem _ se (by simp [hs])
  · intro hcl
    have hcl1 : f.Close.2 = some ce := hcl
    exact Is_Join_of_mem _ ce (by simp [hcl1])

/-- C3 at a concrete input: the sink returns `leaf 5`, closing the reader
returns `leaf 2`, and the returned error matches both. -/
theorem sink_and_close_errors_both_kept_witness :
    (FileToReaderDefault [] NewParquetReadOpts closeFails).2 =
      .ok { props := NewParquetReadOpts.toArrowReadProperties } ∧
    Is (ParquetFileToCsvDefault [] NewParquetReadOpts ctx0 closeFails failingSink
      emptySink).2.2 (some (.leaf 5)) = true ∧
    Is (ParquetFileToCsvDefault [] NewParquetReadOpts ctx0 closeFails failingSink
      emptySink).2.2 (some (.leaf 2)) = true :=
  have t := sink_and_close_errors_both_kept [] NewParquetReadOpts ctx0 closeFails failingSink
    emptySink { props := NewParquetReadOpts.toArrowReadProperties } (.leaf 5) (.leaf 2) rfl
  ⟨rfl, t.1 rfl, t.2 rfl⟩

/-- C4: `ParquetFileToCsvDefault` returns nil exactly when opening the reader,
the sink and closing the reader all succeeded: a nil result implies that the
open returned a reader and that the sink's error and the close error are nil,
and conversely. -/
theorem nil_result_iff_all_stages_succeed {σ : Type} (h : Heap) (o : ParquetReadOpts)
    (ctx : Context) (f : File) (cwtr : CsvWriter σ) (s : σ) :
    (ParquetFileToCsvDefault h o ctx f cwtr s).2.2 = none ↔
      ∃ rdr, (FileToReaderDefault h o f).2 = .ok rdr ∧
        (cwtr ctx (rdr.ToIterDefault h f ctx) s).2 = none ∧ (rdr.Close f).2 = none := by
  cases hr : (FileToReaderDefault h o f).2 with
  | error e =>
    rw [ParquetFileToCsvDefault_error h o ctx f cwtr s e hr]
    simp [Join_cons_some]
  | ok rdr =>
    rw [ParquetFileToCsvDefault_ok h o ctx f cwtr s rdr hr]
    simp only [Join_pair_eq_none]
    constructor
    · intro hn
      exact ⟨rdr, rfl, hn.1, hn.2⟩
    · rintro ⟨rdr1, h1, h2, h3⟩
      have : rdr1 = rdr := by
        injection h1 with h1
        exact h1.symm
      subst this
      exact ⟨h2, h3⟩

/-! ### The command line program -/

/-- The per-file conversion once the file and the reader are open: the
returned error is the error left by the body and the flush or, when that is
nil, the error of closing the reader. -/
theorem Convert_returned (h : Heap) (o : Options) (out : Stdout) (ctx : Context)
    (osOpen : String → Except GoError File) (name : String) (pfile : File)
    (rdr : ParquetReader) (hfile : osOpen name = .ok pfile)
    (hrdr : (o.ParquetFileToReader h pfile).2 = .ok rdr) :
    (o.Convert h out ctx osOpen name).returned =
      setIfNil (afterFlush (convertBody h o out ctx rdr pfile)) (rdr.Close pfile).2 := by
  have hopen := FileToReaderDefault_ok h o.toParquetReadOpts pfile rdr hrdr
  simp only [Options.Convert, hfile, Options.ParquetFileToRowsToCsvToStdout,
    Options.ParquetFileToReader, hopen, runDefers]

/-- C10, as amended: in the per-file conversion of the command, once the
reader is open, a non-nil error from closing the reader is the error `Convert`
returns when the conversion body and the deferred flush left no error; when
they left an error, `Convert` returns that earlier error as it is. -/
theorem Convert_surfaces_reader_close (h : Heap) (o : Options) (out : Stdout) (ctx : Context)
    (osOpen : String → Except GoError File) (name : String) (pfile : File)
    (rdr : ParquetReader) (hfile : osOpen name = .ok pfile)
    (hrdr : (o.ParquetFileToReader h pfile).2 = .ok rdr) :
    (afterFlush (convertBody h o out ctx rdr pfile) = none →
      (o.Convert h out ctx osOpen name).returned = (rdr.Close pfile).2) ∧
    (∀ e, afterFlush (convertBody h o out ctx rdr pfile) = some e →
      (o.Convert h out ctx osOpen name).returned = some e) := by
  rw [Convert_returned h o out ctx osOpen name pfile rdr hfile hrdr]
  constructor
  · intro hn
    rw [hn]
    rfl
  · intro e he
    rw [he]
    rfl

/-- C10 (amended) at a concrete input: the conversion succeeds, closing the
reader fails with `leaf 2`, and `Convert` returns `leaf 2`. -/
theorem Convert_surfaces_reader_close_witness :
    opens closeFails inputName = .ok closeFails ∧
    (defaultOptions.ParquetFileToReader [] closeFails).2 =
      .ok { props := defaultOptions.toArrowReadProperties } ∧
    afterFlush (convertBody [] defaultOptions goodStdout ctx0
      { props := defaultOptions.toArrowReadProperties } closeFails) = none ∧
    (defaultOptions.Convert [] goodStdout ctx0 (opens closeFails) inputName).returned =
      some (.leaf 2) :=
  have t := Convert_surfaces_reader_close [] defaultOptions goodStdout ctx0 (opens closeFails)
    inputName closeFails { props := defaultOptions.toArrowReadProperties } rfl rfl
  ⟨rfl, rfl, rfl, t.1 rfl⟩

/-- C10 as stated fails: the schema query fails with `leaf 1` and closing the
reader fails with `leaf 2`; `Convert` returns `leaf 1`, which does not match
the close error `leaf 2`. -/
theorem Convert_drops_reader_close_error :
    (defaultOptions.ParquetFileToReader [] schemaFailsCloseFails).2 =
      .ok { props := defaultOptions.toArrowReadProperties } ∧
    (ParquetReader.Close { props := defaultOptions.toArrowReadProperties }
      schemaFailsCloseFails).2 = some (.leaf 2) ∧
    (defaultOptions.Convert [] goodStdout ctx0 (opens schemaFailsCloseFails)
      inputName).returned = some (.leaf 1) ∧
    Is (defaultOptions.Convert [] goodStdout ctx0 (opens schemaFailsCloseFails)
      inputName).returned (some (.leaf 2)) = false :=
  ⟨rfl, rfl, rfl, by decide⟩

end Parquet2Csv
